import Mathlib

/-!
Verification of the smart-home firewall DPI core against its
natural-language specification.

The C sources are shallowly embedded: byte buffers become `List Nat`
(each element a byte value 0..255, out-of-range reads yield 0), machine
integers become `Nat`/`Int` with explicit `% 2^w` where wrap-around
matters, heap strings become Lean `String`/`List Nat`, and every C loop
whose termination is not structural is given an explicit fuel parameter
and returns `Option` (`none` = the fuel ran out, i.e. the C loop is
still running).
-/

namespace Firewall

/-! ### Byte-buffer primitives -/

/-- Read one byte of a buffer (C `*(data + i)`); out-of-range reads give 0. -/
def getByte (data : List Nat) (i : Nat) : Nat := data.getD i 0

/-- Big-endian 16-bit read (C `ntohs(*((uint16_t *) (data + i)))`). -/
def read16 (data : List Nat) (i : Nat) : Nat :=
  getByte data i * 256 + getByte data (i + 1)

/-- Big-endian 32-bit read (C `ntohl(*((uint32_t *) (data + i)))`). -/
def read32 (data : List Nat) (i : Nat) : Nat :=
  ((getByte data i * 256 + getByte data (i + 1)) * 256 + getByte data (i + 2)) * 256
    + getByte data (i + 3)

/-- Copy of `len` bytes starting at offset `i` (C `memcpy(dst, data + i, len)`). -/
def slice (data : List Nat) (i len : Nat) : List Nat :=
  (List.range len).map (fun k => getByte data (i + k))

/-! ### DNS data model (`include/parsers/dns.h`) -/

/-- `ip_addr_t`: tagged IP address; the payload is kept as the raw byte
    slice of the wire message (the C code keeps A records in network
    byte order and copies AAAA bytes verbatim). -/
inductive IpAddr where
  | v4 (bytes : List Nat)
  | v6 (bytes : List Nat)
  deriving DecidableEq, Repr

/-- `rdata_t`: union over IP address, domain name, or raw bytes;
    `data = NULL` (for `rdlength == 0`) is `empty`. -/
inductive Rdata where
  | ip (a : IpAddr)
  | domainName (s : String)
  | bytes (bs : List Nat)
  | empty
  deriving DecidableEq, Repr

/-- `dns_header_t`. -/
structure DnsHeader where
  id : Nat
  flags : Nat
  qr : Bool
  qdcount : Nat
  ancount : Nat
  nscount : Nat
  arcount : Nat
  deriving DecidableEq, Repr

/-- `dns_question_t`. -/
structure DnsQuestion where
  qname : String
  qtype : Nat
  qclass : Nat
  deriving DecidableEq, Repr

/-- `dns_resource_record_t`. -/
structure DnsResourceRecord where
  name : String
  rtype : Nat
  rclass : Nat
  ttl : Nat
  rdlength : Nat
  rdata : Rdata
  deriving DecidableEq, Repr

/-- `dns_message_t` (authority/additional sections are never parsed by the
    code and are omitted; `questions`/`answers` are `none` when the C
    pointer stays `NULL`). -/
structure DnsMessage where
  header : DnsHeader
  questions : Option (List DnsQuestion)
  answers : Option (List DnsResourceRecord)
  deriving DecidableEq, Repr

/-- DNS record-type constants from `dns_rr_type_t`. -/
def dnsTypeA : Nat := 1
def dnsTypeNS : Nat := 2
def dnsTypeCNAME : Nat := 5
def dnsTypePTR : Nat := 12
def dnsTypeAAAA : Nat := 28

/-! ### DNS parsing (`src/parsers/dns.c`) -/

/-- `dns_parse_header`: 12-byte header; `qr` is `flags & 0x8000` coerced
    to the C `bool` field.  Returns the header and the advanced offset. -/
def dns_parse_header (data : List Nat) (offset : Nat) : DnsHeader × Nat :=
  let flags := read16 data (offset + 2)
  (⟨read16 data offset, flags, flags &&& 0x8000 ≠ 0,
    read16 data (offset + 4), read16 data (offset + 6),
    read16 data (offset + 8), read16 data (offset + 10)⟩,
   offset + 12)

/-- Strip the trailing '.' written after the last label
    (C overwrites it with the NUL terminator). -/
def chopDot (s : String) : String := (s.toList.dropLast).asString

/-- The label bytes of one DNS label, as characters. -/
def labelChars (data : List Nat) (i len : Nat) : String :=
  ((List.range len).map (fun k => Char.ofNat (getByte data (i + k)))).asString

/-- The `while` loop of `dns_parse_domain_name`.  State: `dno` is
    `domain_name_offset`, `offset` the caller cursor, `compression` the
    flag, `acc` the name built so far (labels each followed by '.').
    The C loop has no iteration bound, so it takes fuel; `none` means the
    fuel ran out while the C loop is still running. -/
def dnsNameLoop (data : List Nat) :
    Nat → Nat → Nat → Bool → String → Option (String × Nat)
  | 0, _, _, _, _ => none
  | fuel + 1, dno, offset, compression, acc =>
    if getByte data dno = 0 then
      -- loop exit: drop the final '.', advance past the NUL unless compressed
      some (chopDot acc, if compression then offset else dno + 1)
    else
      let lb := getByte data dno
      if lb / 64 = 3 then
        -- compression pointer: advance caller cursor by 2 only the first time
        let offset' := if compression then offset else offset + 2
        dnsNameLoop data fuel (read16 data dno &&& 0x3fff) offset' true acc
      else
        let acc' := acc ++ labelChars data (dno + 1) lb ++ "."
        let dno' := dno + lb + 1
        let offset' := if compression then offset else dno'
        dnsNameLoop data fuel dno' offset' compression acc'

/-- `dns_parse_domain_name`: returns the decoded name and the advanced
    caller offset. -/
def dns_parse_domain_name (data : List Nat) (offset : Nat) (fuel : Nat) :
    Option (String × Nat) :=
  if getByte data offset = 0 then some ("", offset + 1)
  else dnsNameLoop data fuel offset offset false ""

/-- `dns_parse_questions`: `qdcount` questions, each a name followed by
    16-bit qtype and qclass (`& DNS_CLASS_MASK`). -/
def dns_parse_questions (data : List Nat) :
    Nat → Nat → Nat → Option (List DnsQuestion × Nat)
  | 0, offset, _ => some ([], offset)
  | qd + 1, offset, fuel => do
    let (qname, off) ← dns_parse_domain_name data offset fuel
    let q : DnsQuestion :=
      ⟨qname, read16 data off, read16 data (off + 2) &&& 0x7fff⟩
    let (rest, off') ← dns_parse_questions data qd (off + 4) fuel
    some (q :: rest, off')

/-- `dns_parse_rdata`: dispatch on the record type; A/AAAA keep the raw
    byte slice, NS/CNAME/PTR decode a domain name, anything else copies
    `rdlength` raw bytes; `rdlength == 0` gives a NULL rdata. -/
def dns_parse_rdata (data : List Nat) (rtype rdlength offset fuel : Nat) :
    Option (Rdata × Nat) :=
  if rdlength = 0 then some (.empty, offset)
  else if rtype = dnsTypeA then
    some (.ip (.v4 (slice data offset 4)), offset + rdlength)
  else if rtype = dnsTypeAAAA then
    some (.ip (.v6 (slice data offset rdlength)), offset + rdlength)
  else if rtype = dnsTypeNS ∨ rtype = dnsTypeCNAME ∨ rtype = dnsTypePTR then
    (dns_parse_domain_name data offset fuel).map (fun p => (.domainName p.1, p.2))
  else
    some (.bytes (slice data offset rdlength), offset + rdlength)

/-- `dns_parse_rrs`: `count` resource records. -/
def dns_parse_rrs (data : List Nat) :
    Nat → Nat → Nat → Option (List DnsResourceRecord × Nat)
  | 0, offset, _ => some ([], offset)
  | count + 1, offset, fuel => do
    let (name, off) ← dns_parse_domain_name data offset fuel
    let rtype := read16 data off
    let rclass := read16 data (off + 2) &&& 0x7fff
    let ttl := read32 data (off + 4)
    let rdlength := read16 data (off + 8)
    let (rdata, off') ← dns_parse_rdata data rtype rdlength (off + 10) fuel
    let (rest, off'') ← dns_parse_rrs data count off' fuel
    some (⟨name, rtype, rclass, ttl, rdlength, rdata⟩ :: rest, off'')

/-- `dns_parse_message`: header, then the question section when
    `qdcount > 0`, then the answer section only when `qr == 1` and
    `ancount > 0`.  Fields left `NULL` by the C code are `none`. -/
def dns_parse_message (data : List Nat) (fuel : Nat) : Option DnsMessage :=
  let header := (dns_parse_header data 0).1
  let offset := (dns_parse_header data 0).2
  let qres : Option (Option (List DnsQuestion) × Nat) :=
    if header.qdcount > 0 then
      (dns_parse_questions data header.qdcount offset fuel).map
        (fun p => (some p.1, p.2))
    else some (none, offset)
  match qres with
  | none => none
  | some (questions, off') =>
    let ares : Option (Option (List DnsResourceRecord) × Nat) :=
      if header.qr = true ∧ header.ancount > 0 then
        (dns_parse_rrs data header.ancount off' fuel).map
          (fun p => (some p.1, p.2))
      else some (none, off')
    match ares with
    | none => none
    | some (answers, _) => some ⟨header, questions, answers⟩

/-! ### DNS lookup (`src/parsers/dns.c`) -/

/-- `dns_contains_full_domain_name`: exact string match over the
    question list. -/
def dns_contains_full_domain_name (questions : List DnsQuestion)
    (domain_name : String) : Bool :=
  questions.any (fun q => q.qname = domain_name)

/-- `dns_get_question`: first question whose name matches exactly,
    `none` for the C `NULL`. -/
def dns_get_question (questions : List DnsQuestion)
    (domain_name : String) : Option DnsQuestion :=
  questions.find? (fun q => q.qname = domain_name)

/-- C reads `rdata.ip` through the union; the read is meaningful only
    when the record was parsed as A/AAAA (any other tag is modelled by a
    junk value, as the C bytes would be). -/
def rdata_ip_value : Rdata → IpAddr
  | .ip a => a
  | _ => .v4 []

/-- C reads `rdata.domain_name` through the union; meaningful only for
    NS/CNAME/PTR records. -/
def rdata_domain_name : Rdata → String
  | .domainName s => s
  | _ => ""

/-- The `for` loop of `dns_get_ip_from_name`: walk the answers in list
    order with the current chain name `cname`, collecting A/AAAA
    payloads of matching records and switching `cname` at CNAME
    records. -/
def dnsIpLoop : List DnsResourceRecord → String → List IpAddr → List IpAddr
  | [], _, acc => acc
  | rr :: rest, cname, acc =>
    if rr.name = cname then
      if rr.rtype = dnsTypeA ∨ rr.rtype = dnsTypeAAAA then
        dnsIpLoop rest cname (acc ++ [rdata_ip_value rr.rdata])
      else if rr.rtype = dnsTypeCNAME then
        dnsIpLoop rest (rdata_domain_name rr.rdata) acc
      else dnsIpLoop rest cname acc
    else dnsIpLoop rest cname acc

/-- `dns_get_ip_from_name` (allocation always succeeds in the model). -/
def dns_get_ip_from_name (answers : List DnsResourceRecord)
    (domain_name : String) : List IpAddr :=
  dnsIpLoop answers domain_name []

/-! ### DNS cache (`src/dns_map.c`) -/

/-- `ip_list_t`: the `ip_count` field is a C `uint8_t` (so arithmetic on
    it wraps modulo 256), `ip_addresses` the backing array's contents. -/
structure IpList where
  ip_count : Nat
  ip_addresses : List IpAddr
  deriving DecidableEq, Repr

/-- `dns_entry_t`. -/
structure DnsEntry where
  domain_name : String
  ip_list : IpList
  deriving DecidableEq, Repr

/-- The hash table keyed by exact domain-name string equality
    (`dns_compare` is `strcmp`), modelled as an association list. -/
def DnsMap := List DnsEntry

/-- `dns_map_get`: borrow the entry whose name matches exactly, `NULL`
    (`none`) when absent. -/
def dns_map_get (table : List DnsEntry) (domain_name : String) :
    Option DnsEntry :=
  table.find? (fun e => e.domain_name = domain_name)

/-- `dns_map_add`: when the name is present, allocate a buffer of
    `(old.ip_count + new.ip_count) % 256` addresses (the count is a
    `uint8_t`) and `memcpy` the old then the new addresses into it (the
    buffer holds the first `cnt` of them); when absent, store the entry
    as given (`hashmap_set`). -/
def dns_map_add (table : List DnsEntry) (domain_name : String)
    (ip_list : IpList) : List DnsEntry :=
  match dns_map_get table domain_name with
  | some entry =>
    let old := entry.ip_list
    let cnt := (old.ip_count + ip_list.ip_count) % 256
    let merged : IpList :=
      ⟨cnt, (old.ip_addresses.take old.ip_count ++
             ip_list.ip_addresses.take ip_list.ip_count).take cnt⟩
    table.map (fun e =>
      if e.domain_name = domain_name then ⟨e.domain_name, merged⟩ else e)
  | none => table ++ [⟨domain_name, ip_list⟩]

/-- The C invariant for a well-formed `ip_list_t`: the stored `uint8_t`
    count equals the number of addresses in the backing array. -/
def wfIpList (l : IpList) : Prop :=
  l.ip_count = l.ip_addresses.length ∧ l.ip_count < 256

instance : DecidablePred wfIpList := fun l => by
  unfold wfIpList; infer_instance

/-- The addresses `dns_map_get` observes on a name, `[]` when absent. -/
def dns_map_prior (table : List DnsEntry) (n : String) : List IpAddr :=
  (dns_map_get table n).elim [] (fun e => e.ip_list.ip_addresses)

/-! ### DHCP parser (`src/parsers/dhcp.c`) -/

/-- `dhcp_option_t` (PAD/END carry `length = 0`, `value = NULL`). -/
structure DhcpOption where
  code : Nat
  length : Nat
  value : List Nat
  deriving DecidableEq, Repr

/-- `dhcp_options_t`: the parsed option list (the backing array, in
    insertion order; its `count` is the list length) and the
    denormalized message-type field, `none` while the C field is still
    uninitialized. -/
structure DhcpOptions where
  options : List DhcpOption
  message_type : Option Nat
  deriving DecidableEq, Repr

/-- `dhcp_message_t`: fixed 236-byte header fields plus options.
    IPv4 address fields are kept as their raw network-order 4-byte
    slices, as the C code does. -/
structure DhcpMessage where
  op : Nat
  htype : Nat
  hlen : Nat
  hops : Nat
  xid : Nat
  secs : Nat
  flags : Nat
  ciaddr : List Nat
  yiaddr : List Nat
  siaddr : List Nat
  giaddr : List Nat
  chaddr : List Nat
  sname : List Nat
  file : List Nat
  options : DhcpOptions
  deriving DecidableEq, Repr

def DHCP_MAGIC_COOKIE : Nat := 0x63825363
def DHCP_HEADER_LEN : Nat := 236

/-- `dhcp_parse_header`: the fixed 236-byte header (the options field is
    uninitialized at this point; it is filled by `dhcp_parse_message`). -/
def dhcp_parse_header (data : List Nat) : DhcpMessage :=
  ⟨getByte data 0, getByte data 1, getByte data 2, getByte data 3,
   read32 data 4, read16 data 8, read16 data 10,
   slice data 12 4, slice data 16 4, slice data 20 4, slice data 24 4,
   slice data 28 16, slice data 44 64, slice data 108 128,
   ⟨[], none⟩⟩

/-- `dhcp_parse_option`: a single byte for PAD (0) and END (255), and
    `(code, length, value)` consuming `2 + length` bytes otherwise; the
    C offset is a `uint16_t`, hence the `% 65536`. -/
def dhcp_parse_option (data : List Nat) (offset : Nat) : DhcpOption × Nat :=
  let code := getByte data offset
  if code = 0 ∨ code = 255 then (⟨code, 0, []⟩, (offset + 1) % 65536)
  else
    let len := getByte data (offset + 1)
    (⟨code, len, slice data (offset + 2) len⟩, (offset + 2 + len) % 65536)

/-- The `do { ... } while (code != DHCP_END)` loop of
    `dhcp_parse_options`: every parsed option — PAD and END included —
    is appended to the list; option 53's first value byte is copied onto
    the message-type field; code 255 ends the walk.  The C loop is not
    bounded by the buffer length, so it takes fuel. -/
def dhcpOptLoop (data : List Nat) :
    Nat → Nat → Option Nat → List DhcpOption → Option DhcpOptions
  | 0, _, _, _ => none
  | fuel + 1, offset, mt, acc =>
    let po := dhcp_parse_option data offset
    let opt := po.1
    let mt' := if opt.code = 53 then some (opt.value.headD 0) else mt
    let acc' := acc ++ [opt]
    if opt.code = 255 then some ⟨acc', mt'⟩
    else dhcpOptLoop data fuel po.2 mt' acc'

/-- `dhcp_parse_options`: `data` starts at the magic cookie (236 bytes
    past the message start); on cookie mismatch the empty option list is
    returned at once with the message type still uninitialized. -/
def dhcp_parse_options (data : List Nat) (fuel : Nat) : Option DhcpOptions :=
  if read32 data 0 ≠ DHCP_MAGIC_COOKIE then some ⟨[], none⟩
  else dhcpOptLoop data fuel 4 none []

/-- `dhcp_parse_message`: fixed header, then options starting at
    `data + DHCP_HEADER_LEN`. -/
def dhcp_parse_message (data : List Nat) (fuel : Nat) : Option DhcpMessage :=
  let m := dhcp_parse_header data
  (dhcp_parse_options (data.drop DHCP_HEADER_LEN) fuel).map
    (fun o => { m with options := o })

/-! ### CoAP parser (`src/parsers/coap.c`) -/

def COAP_URI_PATH : Nat := 11
def COAP_URI_QUERY : Nat := 15

/-- `coap_message_t`: type, method (as the shared `http_method_t` enum
    value), and the reconstructed URI (`none` = C `NULL`, otherwise the
    byte contents of the heap buffer). -/
structure CoapMessage where
  type : Nat
  method : Nat
  uri : Option (List Nat)
  uri_len : Nat
  deriving DecidableEq, Repr

/-- `coap_parse_method`: CoAP request codes 1..4 map onto
    HTTP_GET (0) / HTTP_POST (2) / HTTP_PUT (3) / HTTP_DELETE (4);
    anything else is HTTP_UNKNOWN (8). -/
def coap_parse_method (code : Nat) : Nat :=
  if code = 1 then 0
  else if code = 2 then 2
  else if code = 3 then 3
  else if code = 4 then 4
  else 8

/-- `coap_parse_uri_option`: append `'/'` (for Uri-Path, option 11) or
    `'?'` (for Uri-Query) and then the option's value bytes to the URI
    buffer (first call allocates).  `uri_len` is a C `uint16_t`. -/
def coap_parse_uri_option (msg : CoapMessage) (option_num : Nat)
    (value : List Nat) : CoapMessage :=
  let pfx : Nat := if option_num = COAP_URI_PATH then 47 else 63
  { msg with
    uri := some (msg.uri.getD [] ++ pfx :: value),
    uri_len := (msg.uri_len + value.length + 1) % 65536 }

/-- The `while` loop of `coap_parse_options`.  State: `i` is the data
    cursor (C pointer), `option_num` and `bytes_read` the two `uint16_t`
    counters.  The two C `continue` statements (reserved nibble value
    15) re-enter the loop without advancing the cursor, so the loop
    takes fuel. -/
def coapOptLoop (data : List Nat) (msg_length : Nat) :
    Nat → CoapMessage → Nat → Nat → Nat → Option CoapMessage
  | 0, _, _, _, _ => none
  | fuel + 1, msg, i, option_num, bytes_read =>
    if bytes_read < msg_length ∧ getByte data i ≠ 255 then
      let b := getByte data i
      let delta0 := b / 16
      if delta0 = 15 then
        -- C `case 15: continue;` — nothing advanced, same byte re-read
        coapOptLoop data msg_length fuel msg i option_num bytes_read
      else
        let dl := if delta0 = 13 then 1 else if delta0 = 14 then 2 else 0
        let delta :=
          if delta0 = 13 then (getByte data (i + 1) + 13) % 65536
          else if delta0 = 14 then (read16 data (i + 1) + 269) % 65536
          else delta0
        let option_num' := (option_num + delta) % 65536
        let len0 := b % 16
        if len0 = 15 then
          -- C `case 15: continue;` after the option number was updated
          coapOptLoop data msg_length fuel msg i option_num' bytes_read
        else
          let ll := if len0 = 13 then 1 else if len0 = 14 then 2 else 0
          let olen :=
            if len0 = 13 then (getByte data (i + 1 + dl) + 13) % 65536
            else if len0 = 14 then (read16 data (i + 1 + dl) + 269) % 65536
            else len0
          let i' := i + 1 + dl + ll
          let msg' :=
            if option_num' = COAP_URI_PATH ∨ option_num' = COAP_URI_QUERY
            then coap_parse_uri_option msg option_num' (slice data i' olen)
            else msg
          coapOptLoop data msg_length fuel msg' (i' + olen) option_num'
            ((bytes_read + 1 + dl + ll + olen) % 65536)
    else some msg

/-- `coap_parse_options`: walk the options section (`data` points at its
    first byte, `msg_length` is the remaining message length). -/
def coap_parse_options (msg : CoapMessage) (data : List Nat)
    (msg_length fuel : Nat) : Option CoapMessage :=
  coapOptLoop data msg_length fuel msg 0 0 0

/-- `coap_parse_message`: 4-byte fixed header, token skipped, then the
    option walk; `length - header_length` is `uint16_t` arithmetic. -/
def coap_parse_message (data : List Nat) (length fuel : Nat) :
    Option CoapMessage :=
  let ty := (getByte data 0 &&& 0x30) / 16
  let method := coap_parse_method (getByte data 1)
  let token_length := getByte data 0 &&& 0x0f
  let header_length := 4 + token_length
  coap_parse_options ⟨ty, method, none, 0⟩ (data.drop header_length)
    ((length + 65536 - header_length) % 65536) fuel

/-- Folding `coap_parse_uri_option` over a sequence of URI options
    (option number, value bytes) — exactly what the option walk does to
    the message for each Uri-Path/Uri-Query option it encounters. -/
def coapUriOptionsFold (opts : List (Nat × List Nat)) (msg : CoapMessage) :
    CoapMessage :=
  opts.foldl (fun m p => coap_parse_uri_option m p.1 p.2) msg

/-! ### Queue runtime: timeout gate (`src/nfqueue.c`) -/

/-- `DEFAULT_TIMEOUT` from `nfqueue.h` (seconds). -/
def DEFAULT_TIMEOUT : ℚ := 3600

/-- `is_timedout(threshold, last_request)`: the C `threshold` is a
    `double` (modelled as `ℚ`), `last_request` a `time_t`; the current
    time `time(NULL)` is passed explicitly as `now`, and
    `difftime(now, last_request)` is the exact integer difference. -/
def is_timedout (threshold : ℚ) (last_request now : ℤ) : Bool :=
  if last_request = 0 ∨ threshold = -1 then false
  else
    let th := if threshold = 0 then DEFAULT_TIMEOUT else threshold
    decide (th < ((now - last_request : ℤ) : ℚ))

/-! ### Queue runtime: activity period (`src/nfqueue.c`)

The C code breaks wall-clock times down with `localtime` and rebuilds
them with `mktime` (which also normalizes out-of-range `struct tm`
fields in place).  Both are modelled over UTC on the proleptic Gregorian
calendar (no leap seconds), with `time_t` as `ℤ` seconds since the
epoch. -/

/-- `ActivityPeriod` from `nfqueue.h`: two cron-like strings. -/
structure ActivityPeriod where
  start : String
  duration : String
  deriving DecidableEq, Repr

/-- Digit-prefix value of a character list (stops at the first
    non-digit), as C `atoi` does after the optional sign. -/
def digitsVal : List Char → Nat → Nat
  | [], acc => acc
  | c :: rest, acc =>
    if c.isDigit then digitsVal rest (acc * 10 + (c.toNat - 48)) else acc

/-- C `atoi` on a whitespace-free token. -/
def atoi (s : String) : Int :=
  match s.toList with
  | '-' :: rest => -(digitsVal rest 0 : Int)
  | '+' :: rest => (digitsVal rest 0 : Int)
  | cs => (digitsVal cs 0 : Int)

/-- Space-tokenization of a character list (`strtok` with delimiter
    `" "`: empty tokens are skipped). -/
def tokenizeAux : List Char → List Char → List (List Char)
  | [], cur => if cur.isEmpty then [] else [cur.reverse]
  | c :: rest, cur =>
    if c = ' ' then
      if cur.isEmpty then tokenizeAux rest []
      else cur.reverse :: tokenizeAux rest []
    else tokenizeAux rest (c :: cur)

/-- The `strtok` token list of a string. -/
def tokenize (s : String) : List String :=
  (tokenizeAux s.toList []).map List.asString

/-- `parse_period`: tokenize on spaces and map the first four tokens to
    (minutes, hours, days, dayOfWeek); `"*"` is 0 for a duration and −1
    otherwise; other tokens go through `atoi`.  (C leaves fields of
    missing tokens uninitialized; the model uses 0 — every period string
    in the profiles has four fields.) -/
def parse_period (period_str : String) (is_duration : Bool) :
    Int × Int × Int × Int :=
  let tokens := tokenize period_str
  let value := fun (t : String) =>
    if t = "*" then (if is_duration then (0 : Int) else -1) else atoi t
  (((tokens.get? 0).map value).getD 0,
   ((tokens.get? 1).map value).getD 0,
   ((tokens.get? 2).map value).getD 0,
   ((tokens.get? 3).map value).getD 0)

/-- Day number (epoch day 0 = 1970-01-01) of a civil date `y-m-d` with
    `m ∈ 1..12` (standard era-based conversion). -/
def days_from_civil (y m d : Int) : Int :=
  let y' := if m ≤ 2 then y - 1 else y
  let era := Int.fdiv y' 400
  let yoe := y' - era * 400
  let mp := Int.emod (m + 9) 12
  let doy := (153 * mp + 2) / 5 + d - 1
  let doe := yoe * 365 + yoe / 4 - yoe / 100 + doy
  era * 146097 + doe - 719468

/-- Civil date `(y, m, d)` of an epoch day number (inverse of
    `days_from_civil`). -/
def civil_from_days (z : Int) : Int × Int × Int :=
  let z' := z + 719468
  let era := Int.fdiv z' 146097
  let doe := z' - era * 146097
  let yoe := (doe - doe / 1460 + doe / 36524 - doe / 146096) / 365
  let y := yoe + era * 400
  let doy := doe - (365 * yoe + yoe / 4 - yoe / 100)
  let mp := (5 * doy + 2) / 153
  let d := doy - (153 * mp + 2) / 5 + 1
  let m := if mp < 10 then mp + 3 else mp - 9
  (if m ≤ 2 then y + 1 else y, m, d)

/-- The `struct tm` fields the code uses (`tm_mon` 0-based, `tm_year`
    relative to 1900, as in C). -/
structure Tm where
  sec : Int
  min : Int
  hour : Int
  mday : Int
  mon : Int
  year : Int
  deriving DecidableEq, Repr

/-- `localtime` (UTC model): break a `time_t` into calendar fields. -/
def localtime (t : Int) : Tm :=
  let z := Int.fdiv t 86400
  let s := t - z * 86400
  let c := civil_from_days z
  ⟨s % 60, (s / 60) % 60, s / 3600, c.2.2, c.2.1 - 1, c.1 - 1900⟩

/-- `mktime` (UTC model): rebuild the `time_t`, accepting out-of-range
    fields exactly as C `mktime` normalization does (months overflow
    into years, days and hours are plain offsets). -/
def mktime (tm : Tm) : Int :=
  let months := tm.year * 12 + tm.mon
  let y := 1900 + Int.fdiv months 12
  let m := Int.emod months 12 + 1
  days_from_civil y m 1 * 86400 + (tm.mday - 1) * 86400 +
    tm.hour * 3600 + tm.min * 60 + tm.sec

/-- Day of week of a `time_t` (0 = Sunday), i.e. C `getDayOfWeek`,
    which reads `localtime(t)->tm_wday`. -/
def getDayOfWeek (t : Int) : Int := Int.emod (Int.fdiv t 86400 + 4) 7

/-- The backward-walk loop of `previous_trigger`.  Each iteration
    evaluates `mktime(check_tm)` — which normalizes the struct in
    place, hence the recursion continues from `localtime (mktime tm)` —
    and decrements the most significant fixed field while the candidate
    is after `t` or on the wrong day of the week.  The C loop has no
    iteration bound, so it takes fuel; when every field is `*` and the
    condition holds the C loop would spin forever (no branch applies),
    which the model reflects by running out of fuel. -/
def prevTrigLoop (t mi ho da dw : Int) : Nat → Tm → Option Tm
  | 0, _ => none
  | fuel + 1, tm =>
    let v := mktime tm
    let tmN := localtime v
    if v > t ∨ (dw ≠ -1 ∧ getDayOfWeek v ≠ dw) then
      let tm' :=
        if da ≠ -1 then { tmN with mon := tmN.mon - 1 }
        else if dw ≠ -1 then { tmN with mday := tmN.mday - 1 }
        else if ho ≠ -1 then { tmN with mday := tmN.mday - 1 }
        else if mi ≠ -1 then { tmN with hour := tmN.hour - 1 }
        else tmN
      prevTrigLoop t mi ho da dw fuel tm'
    else some tmN

/-- `previous_trigger`: seed `check_tm` from the current time with the
    fixed start fields substituted, run the backward walk, then pull the
    less-significant `*` fields to their maxima (59 minutes, 23 hours)
    when the trigger landed on an earlier hour/day/weekday. -/
def previous_trigger (ap : ActivityPeriod) (t : Int) (fuel : Nat) :
    Option Int :=
  let ctm := localtime t
  let current_day := ctm.mday
  let current_dow := getDayOfWeek t
  let current_hour := ctm.hour
  let f := parse_period ap.start false
  let mi := f.1
  let ho := f.2.1
  let da := f.2.2.1
  let dw := f.2.2.2
  let tm0 : Tm := { ctm with
    sec := 0,
    min := if mi ≠ -1 then mi else ctm.min,
    hour := if ho ≠ -1 then ho else ctm.hour,
    mday := if da ≠ -1 then da else ctm.mday }
  (prevTrigLoop t mi ho da dw fuel tm0).map (fun tmN =>
    let wd := getDayOfWeek (mktime tmN)
    let tm1 := if ho ≠ -1 ∧ current_hour ≠ tmN.hour ∧ mi = -1 then
        { tmN with min := 59 } else tmN
    let tm2 := if da ≠ -1 ∧ current_day ≠ tm1.mday then
        { tm1 with hour := if ho = -1 then 23 else tm1.hour,
                   min := if mi = -1 then 59 else tm1.min }
      else tm1
    let tm3 := if dw ≠ -1 ∧ current_dow ≠ wd then
        { tm2 with hour := if ho = -1 then 23 else tm2.hour,
                   min := if mi = -1 then 59 else tm2.min }
      else tm2
    mktime tm3)

/-- The duration of an activity period in seconds, as
    `is_in_activity_period` computes it:
    `minutes*60 + hours*3600 + days*86400` (the parsed day-of-week
    duration field is unused). -/
def activity_duration_seconds (ap : ActivityPeriod) : Int :=
  let d := parse_period ap.duration true
  d.1 * 60 + d.2.1 * 3600 + d.2.2.1 * 86400

/-- `is_in_activity_period`: start is the previous trigger, end is
    start plus the duration; in-period iff
    `start_time <= current_time && current_time < end_time`. -/
def is_in_activity_period (ap : ActivityPeriod) (t : Int) (fuel : Nat) :
    Option Bool :=
  (previous_trigger ap t fuel).map (fun start_time =>
    decide (start_time ≤ t ∧ t < start_time + activity_duration_seconds ap))

/-- A 14-byte DNS message: 12-byte header with `qdcount = 1`, followed by
    the two bytes `0xc0 0x0c` — a compression pointer at offset 12 whose
    target offset is 12, i.e. a pointer cycle of length one. -/
def dnsCycleMsg : List Nat := [0, 0, 0, 0, 0, 1, 0, 0, 0, 0, 0, 0, 0xc0, 0x0c]

/-- A name is reachable from `root` via a CNAME chain whose records all
    lie within the given answer list. -/
inductive ReachableName (answers : List DnsResourceRecord) (root : String) :
    String → Prop
  | refl : ReachableName answers root root
  | step {m t : String} (hm : ReachableName answers root m)
      (rr : DnsResourceRecord) (hrr : rr ∈ answers) (hname : rr.name = m)
      (htype : rr.rtype = dnsTypeCNAME)
      (htarget : rdata_domain_name rr.rdata = t) :
      ReachableName answers root t

/-- The A/AAAA payloads of an answer list, in list order. -/
def dns_a_payloads (answers : List DnsResourceRecord) : List IpAddr :=
  answers.filterMap (fun rr =>
    if rr.rtype = dnsTypeA ∨ rr.rtype = dnsTypeAAAA
    then some (rdata_ip_value rr.rdata) else none)

end Firewall

namespace Firewall

/-! ### Theorems -/

/-- On the pointer-cycle message, every iteration of the name-decoding
    loop is at `domain_name_offset = 12` again: the loop never exits,
    whatever the fuel. -/
lemma dnsNameLoop_cycle (fuel : Nat) :
    ∀ (offset : Nat) (comp : Bool) (acc : String),
      dnsNameLoop dnsCycleMsg fuel 12 offset comp acc = none := by
  induction fuel with
  | zero => intro offset comp acc; rfl
  | succ n ih =>
    intro offset comp acc
    rw [dnsNameLoop]
    norm_num [getByte, read16, dnsCycleMsg]
    exact ih _ _ _

/-- Claim C1: the spec demands that domain-name decoding read at most
    `L` bytes and terminate, a compression-pointer cycle yielding an
    empty or bounded name.  The code has no such bound: on the 14-byte
    message `dnsCycleMsg`, whose question name is a compression pointer
    that targets itself, `dns_parse_domain_name` (and hence
    `dns_parse_message`, which calls it on the question section) loops
    forever — in the fuel model it exhausts every fuel value. -/
theorem C1_dns_pointer_cycle_never_terminates (fuel : Nat) :
    dns_parse_domain_name dnsCycleMsg 12 fuel = none ∧
      dns_parse_message dnsCycleMsg fuel = none := by
  have hname : dns_parse_domain_name dnsCycleMsg 12 fuel = none := by
    rw [dns_parse_domain_name]
    norm_num [getByte, dnsCycleMsg]
    exact dnsNameLoop_cycle fuel 12 false ""
  refine ⟨hname, ?_⟩
  rw [dns_parse_message]
  norm_num [dns_parse_header, getByte, read16, dnsCycleMsg,
    dns_parse_questions]
  simp only [dnsCycleMsg] at hname
  simp [hname]

/-- `dns_map_get` looks through an entry-wise update that does not
    change domain names. -/
lemma dns_map_get_map (n : String) (f : DnsEntry → DnsEntry)
    (hf : ∀ e, (f e).domain_name = e.domain_name) :
    ∀ table : List DnsEntry,
      dns_map_get (table.map f) n = (dns_map_get table n).map f := by
  intro table
  induction table with
  | nil => rfl
  | cons e rest ih =>
    unfold dns_map_get at *
    by_cases h : e.domain_name = n
    · rw [List.map_cons, List.find?_cons_of_pos, List.find?_cons_of_pos] <;>
        simp [hf, h]
    · rw [List.map_cons, List.find?_cons_of_neg, List.find?_cons_of_neg, ih] <;>
        simp [hf, h]

/-- `dns_map_get` finds a freshly appended entry when the name was
    absent. -/
lemma dns_map_get_append (n : String) (x : DnsEntry) (hx : x.domain_name = n)
    (table : List DnsEntry) (h : dns_map_get table n = none) :
    dns_map_get (table ++ [x]) n = some x := by
  unfold dns_map_get at h ⊢
  rw [List.find?_append, h]
  simp [List.find?, hx]

/-- `dns_map_add` on an absent name appends the entry as given. -/
lemma dns_map_add_absent (table : List DnsEntry) (n : String) (L : IpList)
    (h : dns_map_get table n = none) :
    dns_map_add table n L = table ++ [⟨n, L⟩] := by
  unfold dns_map_add; rw [h]

/-- `dns_map_add` on a present, well-formed entry concatenates the
    address lists in order (the `uint8_t` count does not wrap below
    256 total addresses). -/
lemma dns_map_add_present (table : List DnsEntry) (n : String) (L : IpList)
    (e : DnsEntry) (h : dns_map_get table n = some e)
    (hewf : wfIpList e.ip_list) (hLwf : wfIpList L)
    (hfit : e.ip_list.ip_addresses.length + L.ip_addresses.length < 256) :
    dns_map_add table n L = table.map (fun x =>
      if x.domain_name = n then
        ⟨x.domain_name,
          ⟨e.ip_list.ip_addresses.length + L.ip_addresses.length,
            e.ip_list.ip_addresses ++ L.ip_addresses⟩⟩
      else x) := by
  have hcnt : (e.ip_list.ip_count + L.ip_count) % 256 =
      e.ip_list.ip_addresses.length + L.ip_addresses.length := by
    rw [hewf.1, hLwf.1]; exact Nat.mod_eq_of_lt hfit
  have hmerged : (e.ip_list.ip_addresses.take e.ip_list.ip_count ++
      L.ip_addresses.take L.ip_count).take
      (e.ip_list.ip_addresses.length + L.ip_addresses.length) =
      e.ip_list.ip_addresses ++ L.ip_addresses := by
    rw [hewf.1, hLwf.1, List.take_length, List.take_length,
      ← List.length_append, List.take_length]
  unfold dns_map_add
  rw [h]
  simp only [hcnt, hmerged]

/-- Claim C3, counterexample: the claim quantifies over every DNS cache,
    but on a cache that already maps "x.com" to one address, adding
    `L1 = [2.2.2.2]` then `L2 = [3.3.3.3]` makes `dns_map_get` return
    the three-address list with the prior address still in front — not
    the two-element concatenation `L1 ++ L2` the claim asserts. -/
theorem C3_cache_append_counterexample :
    (dns_map_get
        (dns_map_add
          (dns_map_add
            (dns_map_add [] "x.com" ⟨1, [.v4 [1, 1, 1, 1]]⟩)
            "x.com" ⟨1, [.v4 [2, 2, 2, 2]]⟩)
          "x.com" ⟨1, [.v4 [3, 3, 3, 3]]⟩)
        "x.com").map (fun e => e.ip_list.ip_addresses) =
      some [.v4 [1, 1, 1, 1], .v4 [2, 2, 2, 2], .v4 [3, 3, 3, 3]] ∧
    ([IpAddr.v4 [1, 1, 1, 1], .v4 [2, 2, 2, 2], .v4 [3, 3, 3, 3]] ≠
      [IpAddr.v4 [2, 2, 2, 2], .v4 [3, 3, 3, 3]]) := by
  constructor
  · decide
  · decide

/-- Claim C3 as amended: after `add(n, L1)` then `add(n, L2)` on a
    well-formed cache, `get(n)` observes `P ++ L1 ++ L2` where `P` is
    the list previously stored for `n` (`[]` when `n` was absent; the
    original claim's `L1 ++ L2` is the `P = []` case), provided the
    total number of addresses fits the `uint8_t` counter (< 256);
    order is preserved and nothing is deduplicated. -/
theorem C3_cache_append_amended (table : List DnsEntry) (n : String)
    (L1 L2 : IpList)
    (hT : ∀ e ∈ table, wfIpList e.ip_list)
    (h1 : wfIpList L1) (h2 : wfIpList L2)
    (hfit : (dns_map_prior table n).length + L1.ip_addresses.length +
      L2.ip_addresses.length < 256) :
    (dns_map_get (dns_map_add (dns_map_add table n L1) n L2) n).map
        (fun e => e.ip_list.ip_addresses) =
      some (dns_map_prior table n ++ L1.ip_addresses ++ L2.ip_addresses) := by
  cases hget : dns_map_get table n with
  | none =>
    have hprior : dns_map_prior table n = [] := by
      simp [dns_map_prior, hget]
    rw [hprior] at hfit
    have hadd1 := dns_map_add_absent table n L1 hget
    have hget1 : dns_map_get (dns_map_add table n L1) n = some ⟨n, L1⟩ := by
      rw [hadd1]; exact dns_map_get_append n ⟨n, L1⟩ rfl table hget
    rw [dns_map_add_present (dns_map_add table n L1) n L2 ⟨n, L1⟩ hget1 h1 h2
      (by simpa using hfit)]
    rw [dns_map_get_map n _ (fun x => by split <;> rfl) (dns_map_add table n L1),
      hget1]
    simp [hprior]
  | some e =>
    have hget' := hget
    unfold dns_map_get at hget'
    have hename : e.domain_name = n := by
      have hdec := List.find?_some hget'
      simpa using hdec
    have hewf := hT e (List.mem_of_find?_eq_some hget')
    have hprior : dns_map_prior table n = e.ip_list.ip_addresses := by
      simp [dns_map_prior, hget]
    rw [hprior] at hfit
    rw [dns_map_add_present table n L1 e hget hewf h1 (by omega)]
    have hget1 : dns_map_get (table.map (fun x =>
        if x.domain_name = n then
          ⟨x.domain_name,
            ⟨e.ip_list.ip_addresses.length + L1.ip_addresses.length,
              e.ip_list.ip_addresses ++ L1.ip_addresses⟩⟩
        else x)) n = some
          ⟨e.domain_name,
            ⟨e.ip_list.ip_addresses.length + L1.ip_addresses.length,
              e.ip_list.ip_addresses ++ L1.ip_addresses⟩⟩ := by
      rw [dns_map_get_map n _ (fun x => by split <;> rfl) table, hget]
      simp [hename]
    rw [dns_map_add_present _ n L2 _ hget1
      ⟨by simp, by simp; omega⟩ h2 (by simp; omega)]
    rw [dns_map_get_map n _ (fun x => by split <;> rfl) _, hget1]
    simp [hprior, hename]

/-- Witness for the amended C3 on a concrete cache: an empty cache, then
    two one-address lists for "x.com". -/
theorem C3_cache_append_amended_witness :
    (dns_map_get
        (dns_map_add (dns_map_add [] "x.com" ⟨1, [.v4 [2, 2, 2, 2]]⟩)
          "x.com" ⟨1, [.v4 [3, 3, 3, 3]]⟩)
        "x.com").map (fun e => e.ip_list.ip_addresses) =
      some [IpAddr.v4 [2, 2, 2, 2], .v4 [3, 3, 3, 3]] := by
  have := C3_cache_append_amended [] "x.com"
    ⟨1, [.v4 [2, 2, 2, 2]]⟩ ⟨1, [.v4 [3, 3, 3, 3]]⟩
    (by intro e he; cases he) (by decide) (by decide) (by decide)
  simpa [dns_map_prior, dns_map_get] using this

/-- Claim C6: when the four bytes just past the 236-byte fixed header do
    not spell the magic cookie 0x63825363, the parsed message's option
    list is empty (count 0) and its message-type field is never written
    (it stays uninitialized — `none` in the model): no option is read. -/
theorem C6_dhcp_bad_magic_cookie (data : List Nat) (fuel : Nat)
    (h : read32 (data.drop DHCP_HEADER_LEN) 0 ≠ DHCP_MAGIC_COOKIE) :
    (dhcp_parse_message data fuel).map (fun m => m.options) =
      some ⟨[], none⟩ := by
  simp [dhcp_parse_message, dhcp_parse_options, h]

/-- Witness for C6: 240 zero bytes — the cookie field reads 0. -/
theorem C6_dhcp_bad_magic_cookie_witness :
    (dhcp_parse_message (List.replicate 240 0) 5).map (fun m => m.options) =
      some ⟨[], none⟩ :=
  C6_dhcp_bad_magic_cookie (List.replicate 240 0) 5 (by decide)

/-- Options area consisting of the magic cookie, one PAD byte (0) and
    one END byte (255). -/
def dhcpPadOptsData : List Nat := [0x63, 0x82, 0x53, 0x63, 0, 255]

/-- Claim C7, counterexample: the claim says a padding byte "does not
    appear in the parsed insertion-ordered options list", but the walk
    appends every parsed option to the list, PAD and END included: on a
    cookie followed by `00 ff` the parsed list is
    `[(code 0), (code 255)]`, so the PAD option does appear (the claim
    would give a list without the code-0 entry). -/
theorem C7_dhcp_pad_appears_counterexample :
    dhcp_parse_options dhcpPadOptsData 10 =
      some ⟨[⟨0, 0, []⟩, ⟨255, 0, []⟩], none⟩ := by
  decide

/-- Claim C7 as amended: one step of the DHCP option walk behaves as
    follows — a single byte 0 (padding) consumes one byte and is
    appended to the options list as a zero-length option with code 0
    (it is stored, not omitted); a single byte 255 (End) is appended
    and terminates the walk; every other option is parsed as
    (code, length, `length` value bytes), consuming `2 + length` bytes,
    and option 53's first value byte is denormalized onto the
    message-type field. -/
theorem C7_dhcp_option_walk_amended (data : List Nat) (offset : Nat)
    (mt : Option Nat) (acc : List DhcpOption) (fuel : Nat) :
    dhcpOptLoop data (fuel + 1) offset mt acc =
      (if getByte data offset = 255 then
        some ⟨acc ++ [⟨255, 0, []⟩], mt⟩
      else if getByte data offset = 0 then
        dhcpOptLoop data fuel ((offset + 1) % 65536) mt (acc ++ [⟨0, 0, []⟩])
      else
        dhcpOptLoop data fuel ((offset + 2 + getByte data (offset + 1)) % 65536)
          (if getByte data offset = 53 then
            some ((slice data (offset + 2)
              (getByte data (offset + 1))).headD 0)
           else mt)
          (acc ++ [⟨getByte data offset, getByte data (offset + 1),
            slice data (offset + 2) (getByte data (offset + 1))⟩])) := by
  rw [dhcpOptLoop]
  by_cases h255 : getByte data offset = 255
  · simp [dhcp_parse_option, h255]
  · by_cases h0 : getByte data offset = 0
    · simp [dhcp_parse_option, h0, h255]
    · simp [dhcp_parse_option, h0, h255]

/-- On the one-byte options section `0x0f` (delta nibble 0, length
    nibble 15), the `continue` for the reserved value 15 re-enters the
    loop with the cursor, `bytes_read` and the data byte unchanged: the
    loop never exits, whatever the fuel. -/
lemma coapOptLoop_reserved_stuck (fuel : Nat) :
    ∀ (msg : CoapMessage) (onum : Nat),
      coapOptLoop [0x0f] 1 fuel msg 0 onum 0 = none := by
  induction fuel with
  | zero => intro msg onum; rfl
  | succ n ih =>
    intro msg onum
    rw [coapOptLoop]
    norm_num [getByte]
    exact ih msg ((onum + 0) % 65536)

/-- Claim C5: the spec says the reserved delta/length nibble value 15
    terminates the option walk and `coap_parse_options` returns for
    every input.  The code instead executes `continue` inside the
    `switch`, which re-enters the `while` loop without advancing the
    data pointer or `bytes_read`: on the single option byte `0x0f`
    (length nibble 15) the walk loops forever — it exhausts every fuel
    value, both directly and via `coap_parse_message`. -/
theorem C5_coap_reserved_nibble_never_terminates (fuel : Nat)
    (msg : CoapMessage) :
    coap_parse_options msg [0x0f] 1 fuel = none ∧
      coap_parse_message [0x40, 1, 0, 0, 0x0f] 5 fuel = none := by
  constructor
  · exact coapOptLoop_reserved_stuck fuel msg 0
  · show coapOptLoop _ _ _ _ _ _ _ = none
    norm_num [getByte, coap_parse_method]
    exact coapOptLoop_reserved_stuck fuel _ 0

/-- The URI accumulated by folding `coap_parse_uri_option` over a
    sequence of URI options: each option appends its prefix byte
    ('/' = 47 for Uri-Path, '?' = 63 for everything else, i.e.
    Uri-Query) followed by its value bytes. -/
lemma coapUriOptionsFold_uri (opts : List (Nat × List Nat)) :
    ∀ msg : CoapMessage,
      (coapUriOptionsFold opts msg).uri =
        if opts = [] then msg.uri
        else some (msg.uri.getD [] ++
          (opts.map (fun p =>
            (if p.1 = COAP_URI_PATH then 47 else 63) :: p.2)).flatten) := by
  induction opts with
  | nil => intro msg; rfl
  | cons o rest ih =>
    intro msg
    show (coapUriOptionsFold rest (coap_parse_uri_option msg o.1 o.2)).uri = _
    rw [ih]
    cases rest with
    | nil => simp [coap_parse_uri_option]
    | cons r rs => simp [coap_parse_uri_option]

/-- Claim C8: for a message whose options carry Uri-Path segments
    `p1, p2, …` (option 11) followed by Uri-Query segments `q1, q2, …`
    (option 15), the URI the parser builds is
    `/p1/p2…?q1?q2…` — each path segment preceded by '/' (byte 47) and
    each query segment preceded by '?' (byte 63). -/
theorem C8_coap_uri_assembly (ps qs : List (List Nat)) (msg : CoapMessage)
    (hmsg : msg.uri = none) (hne : ps ≠ [] ∨ qs ≠ []) :
    (coapUriOptionsFold
        (ps.map (fun p => (COAP_URI_PATH, p)) ++
          qs.map (fun q => (COAP_URI_QUERY, q))) msg).uri =
      some ((ps.map (fun p => 47 :: p)).flatten ++
        (qs.map (fun q => 63 :: q)).flatten) := by
  rw [coapUriOptionsFold_uri]
  have hne' : ps.map (fun p => (COAP_URI_PATH, p)) ++
      qs.map (fun q => (COAP_URI_QUERY, q)) ≠ [] := by
    rcases hne with h | h <;> simp [h]
  rw [if_neg hne', hmsg]
  simp [List.map_map, Function.comp_def, COAP_URI_PATH, COAP_URI_QUERY]

/-- Witness for C8: Uri-Path segments "oic", "res" and Uri-Query
    segment "rt" (as byte lists) produce the URI "/oic/res?rt". -/
theorem C8_coap_uri_assembly_witness :
    (coapUriOptionsFold
        [(11, [111, 105, 99]), (11, [114, 101, 115]), (15, [114, 116])]
        ⟨1, 0, none, 0⟩).uri =
      some [47, 111, 105, 99, 47, 114, 101, 115, 63, 114, 116] := by
  have h := C8_coap_uri_assembly [[111, 105, 99], [114, 101, 115]]
    [[114, 116]] ⟨1, 0, none, 0⟩ rfl (Or.inl (by simp))
  simpa [COAP_URI_PATH, COAP_URI_QUERY] using h

/-- Claim C2, counterexample: the claim says every negative threshold
    disables the timeout, but the code only tests `threshold == -1`; at
    `T = -2`, `L = 100`, `now = 200` the gate compares `-2 < 100` and
    reports timed-out. -/
theorem C2_timeout_gate_counterexample :
    is_timedout (-2) 100 200 = true := by
  norm_num [is_timedout]

/-- Claim C2 as amended: with a non-zero last-request time, `T = -1`
    disables the gate; `T = 0` uses the 3600 s default threshold; and
    any other `T` (in particular every `T > 0`, as the claim states, but
    also every negative `T ≠ -1`) is compared directly: timed-out iff
    `T < now − L`. -/
theorem C2_timeout_gate_amended (T : ℚ) (L now : ℤ) (hL : L ≠ 0) :
    (T = -1 → is_timedout T L now = false) ∧
    (T = 0 → (is_timedout T L now = true ↔
      DEFAULT_TIMEOUT < ((now - L : ℤ) : ℚ))) ∧
    (T ≠ -1 → T ≠ 0 → (is_timedout T L now = true ↔
      T < ((now - L : ℤ) : ℚ))) := by
  refine ⟨?_, ?_, ?_⟩
  · intro hT
    simp [is_timedout, hT]
  · intro hT
    simp [is_timedout, hT, hL]
  · intro hT1 hT0
    simp [is_timedout, hT1, hT0, hL]

/-- Witness for the amended C2 at `T = 5`, `L = 100`, `now = 200`:
    the difference 100 exceeds the threshold 5, so the gate reports
    timed-out. -/
theorem C2_timeout_gate_amended_witness : is_timedout 5 100 200 = true := by
  exact ((C2_timeout_gate_amended 5 100 200 (by decide)).2.2
    (by norm_num) (by norm_num)).mpr (by norm_num)

/-- Claim C4: whenever the backward walk of `previous_trigger`
    terminates and yields the most recent trigger `s` of the start
    pattern, `is_in_activity_period` returns in-period exactly for times
    inside `[s, s + duration)`: true when
    `s ≤ t ∧ t < s + duration`, false when `t` is outside. -/
theorem C4_activity_period_gate (ap : ActivityPeriod) (t : Int) (fuel : Nat)
    (s : Int) (h : previous_trigger ap t fuel = some s) :
    (s ≤ t ∧ t < s + activity_duration_seconds ap →
      is_in_activity_period ap t fuel = some true) ∧
    (¬(s ≤ t ∧ t < s + activity_duration_seconds ap) →
      is_in_activity_period ap t fuel = some false) := by
  constructor
  · intro hin
    rw [is_in_activity_period, h]
    exact congrArg some (decide_eq_true hin)
  · intro hout
    rw [is_in_activity_period, h]
    exact congrArg some (decide_eq_false hout)

/-- Witness for C4 (the spec's interaction-gate scenario): with
    start "0 9 * *" and duration "0 1 * *", at 2024-01-01 09:30 UTC
    (epoch 1704101400) the previous trigger is 09:00 (1704099600) and
    the gate reports in-period. -/
theorem C4_activity_period_gate_witness :
    previous_trigger ⟨"0 9 * *", "0 1 * *"⟩ 1704101400 5 =
      some 1704099600 ∧
    is_in_activity_period ⟨"0 9 * *", "0 1 * *"⟩ 1704101400 5 =
      some true := by
  have hprev : previous_trigger ⟨"0 9 * *", "0 1 * *"⟩ 1704101400 5 =
      some 1704099600 := by decide
  refine ⟨hprev, ?_⟩
  exact (C4_activity_period_gate ⟨"0 9 * *", "0 1 * *"⟩ 1704101400 5
    1704099600 hprev).1 (by decide)

/-- Claim C10: when the header's qr bit is 0 (a query), the parsed
    message's answer section stays `NULL`, whatever `ancount` says: the
    answer section is only deserialized when `qr == 1 && ancount > 0`. -/
theorem C10_query_leaves_answers_null (data : List Nat) (fuel : Nat)
    (m : DnsMessage) (hparse : dns_parse_message data fuel = some m)
    (hqr : m.header.qr = false) : m.answers = none := by
  rw [dns_parse_message] at hparse
  dsimp only at hparse
  split at hparse
  · exact absurd hparse (by simp)
  · rename_i questions off' heq
    split at hparse
    · exact absurd hparse (by simp)
    · rename_i answers off'' heq2
      obtain rfl := Option.some.inj hparse
      have hq : (dns_parse_header data 0).1.qr = false := hqr
      rw [if_neg (by simp [hq])] at heq2
      have := Option.some.inj heq2
      exact congrArg Prod.fst this |>.symm

/-- Every address the answer-walk loop collects is the payload of an
    A/AAAA record of the full answer list whose owner name is reachable
    from the root name via a CNAME chain inside that list. -/
lemma dnsIpLoop_sound (answers : List DnsResourceRecord) (n : String) :
    ∀ (l : List DnsResourceRecord) (cname : String) (acc : List IpAddr),
      (∀ rr ∈ l, rr ∈ answers) →
      ReachableName answers n cname →
      (∀ ip ∈ acc, ∃ rr ∈ answers,
        (rr.rtype = dnsTypeA ∨ rr.rtype = dnsTypeAAAA) ∧
          rdata_ip_value rr.rdata = ip ∧ ReachableName answers n rr.name) →
      ∀ ip ∈ dnsIpLoop l cname acc, ∃ rr ∈ answers,
        (rr.rtype = dnsTypeA ∨ rr.rtype = dnsTypeAAAA) ∧
          rdata_ip_value rr.rdata = ip ∧ ReachableName answers n rr.name := by
  intro l
  induction l with
  | nil => intro cname acc _ _ hacc ip hip; exact hacc ip hip
  | cons rr rest ih =>
    intro cname acc hsub hreach hacc ip hip
    have hmem : rr ∈ answers := hsub rr (List.mem_cons_self rr rest)
    have hsub' : ∀ r ∈ rest, r ∈ answers :=
      fun r hr => hsub r (List.mem_cons_of_mem rr hr)
    rw [dnsIpLoop] at hip
    split at hip
    · rename_i hname
      split at hip
      · rename_i htype
        refine ih cname _ hsub' hreach ?_ ip hip
        intro ip' hip'
        rcases List.mem_append.mp hip' with h | h
        · exact hacc ip' h
        · rw [List.mem_singleton] at h
          exact ⟨rr, hmem, htype, h.symm, hname ▸ hreach⟩
      · split at hip
        · rename_i htype
          refine ih _ _ hsub' ?_ hacc ip hip
          exact ReachableName.step hreach rr hmem hname htype rfl
        · exact ih cname acc hsub' hreach hacc ip hip
    · exact ih cname acc hsub' hreach hacc ip hip

/-- The answer-walk loop's result extends `acc` with a subsequence of
    the A/AAAA payloads of the remaining list, in list order. -/
lemma dnsIpLoop_sublist :
    ∀ (l : List DnsResourceRecord) (cname : String) (acc : List IpAddr),
      (dnsIpLoop l cname acc).Sublist (acc ++ dns_a_payloads l) := by
  intro l
  induction l with
  | nil => intro cname acc; simp [dnsIpLoop, dns_a_payloads]
  | cons rr rest ih =>
    intro cname acc
    rw [dnsIpLoop]
    split
    · rename_i hname
      split
      · rename_i htype
        have := ih cname (acc ++ [rdata_ip_value rr.rdata])
        rw [List.append_assoc] at this
        simpa [dns_a_payloads, htype] using this
      · rename_i htype
        have hskip : dns_a_payloads (rr :: rest) = dns_a_payloads rest := by
          simp [dns_a_payloads, htype]
        split
        · rw [hskip]; exact ih _ acc
        · rw [hskip]; exact ih cname acc
    · refine (ih cname acc).trans ?_
      by_cases htype : rr.rtype = dnsTypeA ∨ rr.rtype = dnsTypeAAAA
      · have : dns_a_payloads (rr :: rest) =
            rdata_ip_value rr.rdata :: dns_a_payloads rest := by
          simp [dns_a_payloads, htype]
        rw [this]
        exact List.Sublist.append_left (List.sublist_cons_self _ _) acc
      · simp [dns_a_payloads, htype]

/-- If no record of the list carries the searched name, the walk never
    collects anything and never switches the chain name. -/
lemma dnsIpLoop_absent (n : String) :
    ∀ (l : List DnsResourceRecord) (acc : List IpAddr),
      (∀ rr ∈ l, rr.name ≠ n) → dnsIpLoop l n acc = acc := by
  intro l
  induction l with
  | nil => intro acc _; rfl
  | cons rr rest ih =>
    intro acc habs
    rw [dnsIpLoop]
    rw [if_neg (habs rr (List.mem_cons_self rr rest))]
    exact ih acc (fun r hr => habs r (List.mem_cons_of_mem rr hr))

/-- Claim C9: lookup consistency.  (1) `dns_contains_full_domain_name`
    implies `dns_get_question` returns a non-NULL question; (2) every
    address returned by `dns_get_ip_from_name` is the payload of an
    A/AAAA record of the answer list whose owner is CNAME-reachable from
    the searched name within that list; (3) the returned addresses are an
    order-preserving subsequence of the list's A/AAAA payloads; (4) if
    the name owns no record in the list the result is empty. -/
theorem C9_dns_lookup_consistency (questions : List DnsQuestion)
    (answers : List DnsResourceRecord) (n : String) :
    (dns_contains_full_domain_name questions n = true →
      (dns_get_question questions n).isSome = true) ∧
    (∀ ip ∈ dns_get_ip_from_name answers n, ∃ rr ∈ answers,
      (rr.rtype = dnsTypeA ∨ rr.rtype = dnsTypeAAAA) ∧
        rdata_ip_value rr.rdata = ip ∧ ReachableName answers n rr.name) ∧
    (dns_get_ip_from_name answers n).Sublist (dns_a_payloads answers) ∧
    ((∀ rr ∈ answers, rr.name ≠ n) → dns_get_ip_from_name answers n = []) := by
  refine ⟨?_, ?_, ?_, ?_⟩
  · intro h
    rw [dns_contains_full_domain_name, List.any_eq_true] at h
    rcases h with ⟨q, hq, heq⟩
    rw [dns_get_question, List.find?_isSome]
    exact ⟨q, hq, heq⟩
  · exact dnsIpLoop_sound answers n answers n []
      (fun r hr => hr) ReachableName.refl (by simp)
  · simpa using dnsIpLoop_sublist answers n []
  · exact fun h => dnsIpLoop_absent n answers [] h

/-- Witness for C9 at concrete data: a question list containing
    "a.com" and an answer list `a.com CNAME b.com`, `b.com A 1.2.3.4`,
    checked for a present and an absent name. -/
theorem C9_dns_lookup_consistency_witness :
    (dns_get_question [⟨"a.com", 1, 1⟩] "a.com").isSome = true ∧
      dns_get_ip_from_name
        [⟨"a.com", 5, 1, 60, 5, .domainName "b.com"⟩,
         ⟨"b.com", 1, 1, 60, 4, .ip (.v4 [1, 2, 3, 4])⟩] "c.com" = [] := by
  constructor
  · exact (C9_dns_lookup_consistency [⟨"a.com", 1, 1⟩] [] "a.com").1 (by decide)
  · exact (C9_dns_lookup_consistency []
      [⟨"a.com", 5, 1, 60, 5, .domainName "b.com"⟩,
       ⟨"b.com", 1, 1, 60, 4, .ip (.v4 [1, 2, 3, 4])⟩] "c.com").2.2.2 (by decide)

/-- A 20-byte DNS query whose header has the qr bit clear but
    `ancount = 1`: id 0x1234, flags 0x0100, one question "www" / A / IN. -/
def dnsQueryMsg : List Nat :=
  [0x12, 0x34, 0x01, 0x00, 0x00, 0x01, 0x00, 0x01, 0, 0, 0, 0,
   3, 119, 119, 119, 0, 0, 1, 0, 1]

/-- Witness for C10 at the concrete query `dnsQueryMsg`
    (qr = 0, ancount = 1): the parse succeeds and `answers` is `NULL`. -/
theorem C10_query_leaves_answers_null_witness :
    ∃ m : DnsMessage, dns_parse_message dnsQueryMsg 30 = some m ∧
      m.answers = none := by
  refine ⟨{ header := ⟨0x1234, 0x0100, false, 1, 1, 0, 0⟩,
            questions := some [⟨"www", 1, 1⟩], answers := none }, ?_, ?_⟩
  · decide
  · exact C10_query_leaves_answers_null dnsQueryMsg 30 _ (by decide) (by decide)

end Firewall
